import Mathlib

/-!
Shallow embedding of the HTTP proxy bridging engine in `http.go`
(package main of chenk008/go-shadowsocks2).

Headers (Go `http.Header`, a `map[string][]string`) are modelled as
association lists from names to value lists; `Header.add` mirrors
`http.Header.Add` (append a value, creating the entry when absent).
The effectful handlers `processRequest` and `handleConnect` are modelled
as pure functions over an environment that records the outcome of each
I/O step, producing the trace of writes they perform.
-/

set_option autoImplicit false

namespace ShadowHTTP

/-- Go `http.Header`: a finite map from header names to lists of values,
modelled as an association list (Go map keys are unique; lookup is
first-match, which coincides on unique-key lists). -/
abbrev Header := List (String × List String)

/-- `http.Header.Add`: append value `v` to the entry for key `k`,
creating the entry at the end when `k` is absent. -/
def Header.add (h : Header) (k v : String) : Header :=
  match h with
  | [] => [(k, [v])]
  | kv :: rest => if kv.1 = k then (kv.1, kv.2 ++ [v]) :: rest else kv :: Header.add rest k v

/-- The list of values stored under key `k` (empty when absent). -/
def Header.values (h : Header) (k : String) : List String :=
  match h with
  | [] => []
  | kv :: rest => if kv.1 = k then kv.2 else Header.values rest k

/-- The Go constant `connectionHeader = "Connection"`. -/
def connectionHeader : String := "Connection"

/-- The static hop-by-hop set `hopByHopHeaders` of `http.go` (a
`map[string]struct\x7b\x7d`, modelled by its key list). -/
def hopByHopHeaders : List String :=
  [connectionHeader, "Keep-Alive", "Proxy-Authorization", "Proxy-Authentication",
   "TE", "Trailer", "Transfer-Encoding", "Upgrade"]

/-- Go `unicode.IsSpace` restricted to the Latin-1 range (the only
characters `strings.TrimSpace` treats specially below U+0100):
space, \t, \n, \v, \f, \r, NEL (U+0085) and NBSP (U+00A0). -/
def isGoSpace (c : Char) : Bool :=
  c == ' ' || c == '\t' || c == '\n' || c.toNat == 11 || c.toNat == 12 ||
  c == '\r' || c.toNat == 133 || c.toNat == 160

/-- Go `strings.TrimSpace`: drop leading and trailing white space. -/
def trimSpace (s : String) : String :=
  String.mk (((s.data.dropWhile isGoSpace).reverse.dropWhile isGoSpace).reverse)

/-- The character class of the Go regex `tokenPatternRegex`
(`^[\d\w\!#\$%&'\*\+\-\.\^_\|~` + backtick + `]+$`): RE2 expands `\d` to
0-9 and `\w` to 0-9A-Za-z_; 39 is the apostrophe, 96 the backtick. -/
def isTokenChar (c : Char) : Bool :=
  c.isDigit || c.isAlphanum || c == '_' ||
  c == '!' || c == '#' || c == '$' || c == '%' || c == '&' || c.toNat == 39 ||
  c == '*' || c == '+' || c == '-' || c == '.' || c == '^' || c == '|' ||
  c == '~' || c.toNat == 96

/-- `tokenPattern.MatchString`: the anchored pattern `^[class]+$` matches
exactly the nonempty strings all of whose characters are in the class. -/
def tokenMatch (s : String) : Bool :=
  !s.isEmpty && s.data.all isTokenChar

/-- Character in the range `lo`..`hi` inclusive. -/
def between (lo hi c : Char) : Bool := lo ≤ c && c ≤ hi

/-- The HTTP token grammar as written in the spec:
`^[A-Za-z0-9!#$%&'*+\-.^_` backtick `|~]+$` (39 is the apostrophe,
96 the backtick). Stated from the spec's words, to be compared with
`isTokenChar` taken from the source regex. -/
def specTokenChar (c : Char) : Bool :=
  between 'A' 'Z' c || between 'a' 'z' c || between '0' '9' c ||
  c == '!' || c == '#' || c == '$' || c == '%' || c == '&' || c.toNat == 39 ||
  c == '*' || c == '+' || c == '-' || c == '.' || c == '^' || c == '_' ||
  c.toNat == 96 || c == '|' || c == '~'

/-- The loop body of `processConnectionHdr` over the comma-separated
parts: trim each part; a part matching the token pattern goes into the
drop set (Go: map insert), any other part is appended to `bad`. -/
def pchLoop (acc : List String × List String) : List String → List String × List String
  | [] => acc
  | part :: rest =>
    let header := trimSpace part
    if tokenMatch header then pchLoop (header :: acc.1, acc.2) rest
    else pchLoop (acc.1, acc.2 ++ [header]) rest

/-- `processConnectionHdr(dropHdrs, value)`: split `value` on commas and
process each part; returns the extended drop set together with the `bad`
list of rejected tokens. -/
def processConnectionHdr (dropHdrs : List String) (value : String) :
    List String × List String :=
  pchLoop (dropHdrs, []) (value.splitOn ",")

/-- The dynamic drop set `dynDropHdrs` computed at the top of
`copyHeaders`: fold `processConnectionHdr` over the values of the
source's `Connection` header, starting from the empty set. -/
def dynDropHdrs (src : Header) : List String :=
  match List.lookup connectionHeader src with
  | some vals => vals.foldl (fun d v => (processConnectionHdr d v).1) []
  | none => []

/-- Append all of `vs` under key `k` (the inner `for _, v := range vals`
loop of `copyHeaders`). -/
def addValues (d : Header) (k : String) (vs : List String) : Header :=
  vs.foldl (fun d v => d.add k v) d

/-- The main loop of `copyHeaders`: for each source entry, skip it when
its name is in the static set or in the dynamic drop set, otherwise
append all of its values to `dst`. -/
def copyLoop (dynDrop : List String) (dst : Header) (src : List (String × List String)) :
    Header :=
  src.foldl
    (fun d kv =>
      if kv.1 ∈ hopByHopHeaders then d
      else if kv.1 ∈ dynDrop then d
      else addValues d kv.1 kv.2)
    dst

/-- `copyHeaders(dst, src)` of `http.go`. -/
def copyHeaders (dst src : Header) : Header :=
  copyLoop (dynDropHdrs src) dst src

/-- Concatenation, in entry order, of the values of all entries of `src`
named `k` (on a unique-key list this is just that entry's value list). -/
def entriesValues (src : List (String × List String)) (k : String) : List String :=
  match src with
  | [] => []
  | kv :: rest => (if kv.1 = k then kv.2 else []) ++ entriesValues rest k

theorem values_add_self (h : Header) (k v : String) :
    (h.add k v).values k = h.values k ++ [v] := by
  induction h with
  | nil => simp [Header.add, Header.values]
  | cons kv rest ih =>
    by_cases hk : kv.1 = k
    · simp [Header.add, Header.values, hk]
    · simp [Header.add, Header.values, hk, ih]

theorem values_add_other (h : Header) (k k' v : String) (hne : k' ≠ k) :
    (h.add k' v).values k = h.values k := by
  induction h with
  | nil => simp [Header.add, Header.values, hne]
  | cons kv rest ih =>
    by_cases hk : kv.1 = k'
    · simp [Header.add, Header.values, hk, hne]
    · simp only [Header.add, hk, if_false, Header.values]
      by_cases hk2 : kv.1 = k
      · simp [hk2]
      · simp [hk2, ih]

theorem values_addValues_self (vs : List String) (h : Header) (k : String) :
    (addValues h k vs).values k = h.values k ++ vs := by
  induction vs generalizing h with
  | nil => simp [addValues]
  | cons v vs ih =>
    show (addValues (h.add k v) k vs).values k = _
    rw [ih, values_add_self]
    simp

theorem values_addValues_other (vs : List String) (h : Header) (k k' : String)
    (hne : k' ≠ k) : (addValues h k' vs).values k = h.values k := by
  induction vs generalizing h with
  | nil => simp [addValues]
  | cons v vs ih =>
    show (addValues (h.add k' v) k' vs).values k = _
    rw [ih, values_add_other _ _ _ _ hne]

theorem copyLoop_values (dynDrop : List String) (src : List (String × List String))
    (dst : Header) (k : String) :
    (copyLoop dynDrop dst src).values k =
      if k ∈ hopByHopHeaders ∨ k ∈ dynDrop then dst.values k
      else dst.values k ++ entriesValues src k := by
  induction src generalizing dst with
  | nil => split <;> simp [copyLoop, entriesValues]
  | cons kv rest ih =>
    by_cases hdrop : kv.1 ∈ hopByHopHeaders ∨ kv.1 ∈ dynDrop
    · have hstep : copyLoop dynDrop dst (kv :: rest) = copyLoop dynDrop dst rest := by
        rcases hdrop with h1 | h1
        · simp [copyLoop, h1]
        · by_cases h2 : kv.1 ∈ hopByHopHeaders <;> simp [copyLoop, h1, h2]
      rw [hstep, ih]
      by_cases hk : k ∈ hopByHopHeaders ∨ k ∈ dynDrop
      · simp [hk]
      · have hne : kv.1 ≠ k := by
          intro he; exact hk (he ▸ hdrop)
        simp [hk, entriesValues, hne]
    · push_neg at hdrop
      have hstep : copyLoop dynDrop dst (kv :: rest) =
          copyLoop dynDrop (addValues dst kv.1 kv.2) rest := by
        simp [copyLoop, hdrop.1, hdrop.2]
      rw [hstep, ih]
      by_cases hk : k ∈ hopByHopHeaders ∨ k ∈ dynDrop
      · have hne : kv.1 ≠ k := by
          intro he; rw [he] at hdrop; rcases hk with h | h
          · exact hdrop.1 h
          · exact hdrop.2 h
        simp [hk, values_addValues_other _ _ _ _ hne]
      · by_cases he : kv.1 = k
        · subst he
          simp [hk, values_addValues_self, entriesValues]
        · simp [hk, values_addValues_other _ _ _ _ he, entriesValues, he]

theorem isUpper_eq_between (c : Char) : c.isUpper = between 'A' 'Z' c := rfl

theorem isLower_eq_between (c : Char) : c.isLower = between 'a' 'z' c := rfl

theorem isDigit_eq_between (c : Char) : c.isDigit = between '0' '9' c := rfl

theorem isTokenChar_eq_specTokenChar (c : Char) : isTokenChar c = specTokenChar c := by
  simp only [isTokenChar, specTokenChar, Char.isAlphanum, Char.isAlpha,
    isUpper_eq_between, isLower_eq_between, isDigit_eq_between]
  cases hd : between '0' '9' c
  · simp only [hd, Bool.false_or, Bool.or_false]
    simp only [Bool.or_assoc]
    simp only [Bool.or_comm, Bool.or_left_comm]
    simp only [Bool.or_assoc]
  · simp [hd]

theorem pchLoop_cons_true (acc : List String × List String) (part : String)
    (rest : List String) (hm : tokenMatch (trimSpace part) = true) :
    pchLoop acc (part :: rest) = pchLoop (trimSpace part :: acc.1, acc.2) rest := by
  simp [pchLoop, hm]

theorem pchLoop_cons_false (acc : List String × List String) (part : String)
    (rest : List String) (hm : tokenMatch (trimSpace part) = false) :
    pchLoop acc (part :: rest) = pchLoop (acc.1, acc.2 ++ [trimSpace part]) rest := by
  simp [pchLoop, hm]

theorem pchLoop_mem (parts : List String) (acc : List String × List String) (h : String) :
    h ∈ (pchLoop acc parts).1 ↔
      h ∈ acc.1 ∨ (tokenMatch h = true ∧ ∃ p ∈ parts, trimSpace p = h) := by
  induction parts generalizing acc with
  | nil => simp [pchLoop]
  | cons part rest ih =>
    by_cases hm : tokenMatch (trimSpace part) = true
    · rw [pchLoop_cons_true acc part rest hm, ih]
      constructor
      · rintro (hc | ⟨ht, p, hp, he⟩)
        · rcases List.mem_cons.mp hc with he | hmem
          · exact Or.inr ⟨by rw [he]; exact hm, part, List.mem_cons_self part rest, he.symm⟩
          · exact Or.inl hmem
        · exact Or.inr ⟨ht, p, List.mem_cons_of_mem _ hp, he⟩
      · rintro (hmem | ⟨ht, p, hp, he⟩)
        · exact Or.inl (List.mem_cons_of_mem _ hmem)
        · rcases List.mem_cons.mp hp with hpe | hpm
          · exact Or.inl (List.mem_cons.mpr (Or.inl (by rw [← he, hpe])))
          · exact Or.inr ⟨ht, p, hpm, he⟩
    · rw [pchLoop_cons_false acc part rest (by simpa using hm), ih]
      constructor
      · rintro (hmem | ⟨ht, p, hp, he⟩)
        · exact Or.inl hmem
        · exact Or.inr ⟨ht, p, List.mem_cons_of_mem _ hp, he⟩
      · rintro (hmem | ⟨ht, p, hp, he⟩)
        · exact Or.inl hmem
        · rcases List.mem_cons.mp hp with hpe | hpm
          · rw [hpe] at he
            rw [he] at hm
            exact absurd ht hm
          · exact Or.inr ⟨ht, p, hpm, he⟩

/-- C3: the token class of the source regex coincides with the spec's
HTTP token grammar, and `processConnectionHdr` extends the drop set by
exactly the comma-separated, whitespace-trimmed parts of `value` that
match the token grammar: an invalid part is not added, does not abort
processing, and does not prevent any valid part from being added. -/
theorem processConnectionHdr_correct :
    (∀ c : Char, isTokenChar c = specTokenChar c) ∧
    ∀ (dropHdrs : List String) (value h : String),
      (h ∈ (processConnectionHdr dropHdrs value).1 ↔
        h ∈ dropHdrs ∨
          (tokenMatch h = true ∧ ∃ part ∈ value.splitOn ",", trimSpace part = h)) :=
  ⟨isTokenChar_eq_specTokenChar,
   fun dropHdrs value h => pchLoop_mem (value.splitOn ",") (dropHdrs, []) h⟩

/-- C1: `copyHeaders(destination, source)` appends to `destination`,
for every header name `k` not in the static hop-by-hop set and not in
the dynamic drop set computed from the source's `Connection` header,
all of `source`'s values for `k` in order; a name in either set has
nothing copied (the destination's values for it are unchanged). -/
theorem copyHeaders_correct (dst src : Header) (k : String) :
    (copyHeaders dst src).values k =
      if k ∈ hopByHopHeaders ∨ k ∈ dynDropHdrs src then dst.values k
      else dst.values k ++ entriesValues src k :=
  copyLoop_values (dynDropHdrs src) src dst k

/-- Go `strings.Contains(s, ":")` for a single-character needle:
membership of that character in the string. -/
def containsChar (s : String) (c : Char) : Bool := s.data.contains c

/-- The two code lines of `processRequest` that normalize the target:
`targetHost := req.Host; if !strings.Contains(targetHost, ":") \x7b
targetHost += ":80" \x7d`. -/
def normalizeTargetHost (host : String) : String :=
  if !(containsChar host ':') then host ++ ":80" else host

/-- Which step of `processRequest` produced the returned error. -/
inductive PRErr
  | dial | tokenWrite | newRequest | reqWrite | readResponse | bodyCopy
deriving DecidableEq

/-- A write performed on the upstream connection `rc` by `processRequest`:
either the destination token `rc.Write(tgt)` (recording the `host:port`
string given to `socks.ParseAddr`) or the serialized outgoing request
`proxyReq.Write(rc)` (recording method, request URI, header and body). -/
inductive UpWrite
  | token (dest : String)
  | request (method uri : String) (hdr : Header) (body : String)
deriving DecidableEq

/-- Outcome of every I/O step `processRequest` performs, in program
order: the bytes `ioutil.ReadAll(req.Body)` returned and whether it
errored, whether `h.getConn()` succeeded, the client request data,
whether each upstream write/read succeeded, and the upstream response. -/
structure RequestEnv where
  reqHeader : Header
  host : String
  method : String
  requestURI : String
  bodyBytes : String
  bodyReadErr : Bool
  dialOk : Bool
  tokenWriteOk : Bool
  newRequestOk : Bool
  reqWriteOk : Bool
  readResponseOk : Bool
  respHeader : Header
  respStatusCode : Nat
  bodyCopyErr : Bool
deriving DecidableEq

/-- What `processRequest` did: the status codes passed to
`resp.WriteHeader` in order, the writes on the upstream connection in
order, the headers copied onto the client response, and the error
returned to `ServeHTTP`. -/
structure RequestResult where
  statusWrites : List Nat
  upWrites : List UpWrite
  clientHeader : Header
  err : Option PRErr
deriving DecidableEq

/-- `HTTPProxyHandler.processRequest`, as a function of the handler's
`UserAgent` field and the step outcomes. The error of
`ioutil.ReadAll(req.Body)` (`env.bodyReadErr`) is never inspected,
mirroring `body, err := ioutil.ReadAll(req.Body)` whose `err` is
overwritten by `rc, err := h.getConn()` before any check. -/
def processRequest (ua : String) (env : RequestEnv) : RequestResult :=
  let body := env.bodyBytes
  if !env.dialOk then
    ⟨[500], [], [], some .dial⟩
  else
    let targetHost := normalizeTargetHost env.host
    if !env.tokenWriteOk then
      ⟨[], [.token targetHost], [], some .tokenWrite⟩
    else if !env.newRequestOk then
      ⟨[500], [.token targetHost], [], some .newRequest⟩
    else
      let hdr0 := copyHeaders [] env.reqHeader
      let hdr := if ua ≠ "" then hdr0.add "User-Agent" ua else hdr0
      if !env.reqWriteOk then
        ⟨[500], [.token targetHost, .request env.method env.requestURI hdr body], [],
          some .reqWrite⟩
      else if !env.readResponseOk then
        ⟨[500], [.token targetHost, .request env.method env.requestURI hdr body], [],
          some .readResponse⟩
      else
        ⟨[env.respStatusCode],
          [.token targetHost, .request env.method env.requestURI hdr body],
          copyHeaders [] env.respHeader,
          if env.bodyCopyErr then some .bodyCopy else none⟩

/-- The literal CONNECT acknowledgment written to the raw client
connection in `handleConnect`. -/
def ackText : String := "HTTP/1.0 200 Connection established\r\n\r\n"

/-- An observable event of `handleConnect`, in program order: a write
of the destination token on the upstream connection, a
`resp.WriteHeader` call on the HTTP response object, a successful
hijack of the client connection, a raw write on the hijacked client
connection, the start of the relay, and the relay's two copy
directions (client bytes onto upstream, upstream bytes onto client). -/
inductive CEv
  | upToken (dest : String)
  | respWriteHeader (code : Nat)
  | hijack
  | clientWrite (bytes : String)
  | relayStart
  | upRelay
  | clientRelay
deriving DecidableEq

/-- Outcome of every I/O step `handleConnect` performs: the CONNECT
target `req.URL.Host`, and whether dial, token write, hijack and the
acknowledgment write succeeded. -/
structure ConnectEnv where
  urlHost : String
  dialOk : Bool
  tokenWriteOk : Bool
  hijackOk : Bool
  ackWriteOk : Bool
deriving DecidableEq

/-- What `handleConnect` did: its event trace and whether an error was
returned to `ServeHTTP`. -/
structure ConnectResult where
  events : List CEv
  errored : Bool
deriving DecidableEq

/-- `HTTPProxyHandler.handleConnect` as a function of the step
outcomes. `req.URL.Host` is passed to `socks.ParseAddr` with no port
normalization. On a failed hijack no `hijack` event is recorded (no
ownership was taken); on a failed acknowledgment write the code still
calls `resp.WriteHeader(500)` on the already-hijacked response. The
relay runs `transfer` in both directions and `wg.Wait()` before
returning `nil`. -/
def handleConnect (env : ConnectEnv) : ConnectResult :=
  if !env.dialOk then ⟨[.respWriteHeader 500], true⟩
  else
    let dest := env.urlHost
    if !env.tokenWriteOk then ⟨[.upToken dest], true⟩
    else if !env.hijackOk then ⟨[.upToken dest, .respWriteHeader 500], true⟩
    else if !env.ackWriteOk then
      ⟨[.upToken dest, .hijack, .clientWrite ackText, .respWriteHeader 500], true⟩
    else
      ⟨[.upToken dest, .hijack, .clientWrite ackText, .relayStart, .upRelay, .clientRelay],
        false⟩

/-- Is this event a write on the upstream connection? -/
def CEv.isUpstreamWrite : CEv → Bool
  | .upToken _ => true
  | .upRelay => true
  | _ => false

/-- Is this event a destination-token write? -/
def CEv.isUpTokenEv : CEv → Bool
  | .upToken _ => true
  | _ => false

/-- Does this event mark the start of the relay? -/
def CEv.isRelayStart : CEv → Bool
  | .relayStart => true
  | _ => false

/-- Is this upstream write the destination token? -/
def UpWrite.isTokenWrite : UpWrite → Bool
  | .token _ => true
  | _ => false

/-- The raw bytes written on the hijacked client connection before the
relay begins. -/
def clientWritesPreRelay (evs : List CEv) : List String :=
  (evs.takeWhile (fun e => !e.isRelayStart)).filterMap
    (fun e => match e with | .clientWrite s => some s | _ => none)

/-- State of one `transfer` goroutine: still copying, or finished
(by end-of-stream or by an I/O error, which `transfer` discards). -/
inductive TaskState
  | running | done
deriving DecidableEq

/-- State of the relay section of `handleConnect`: the two `transfer`
tasks, the `sync.WaitGroup` counter (started at 2 by `wg.Add(2)`), and
whether `wg.Wait()` has returned. -/
structure RelayState where
  clientToUp : TaskState
  upToClient : TaskState
  counter : Nat
  returned : Bool
deriving DecidableEq

/-- The relay state right after `wg.Add(2)` and the two `go transfer`
statements. -/
def relayInit : RelayState := ⟨.running, .running, 2, false⟩

/-- One scheduler step of the relay. A running `transfer` task may
finish at any time — `ioErr` records whether its `io.Copy` ended in an
error, and the resulting state does not depend on it, mirroring
`_, _ = io.Copy(dst, src)` followed by `wg.Done()` — and the parent may
pass `wg.Wait()` only once the counter has reached zero. -/
inductive RStep : RelayState → RelayState → Prop
  | finishClientToUp (s : RelayState) (ioErr : Bool) (h : s.clientToUp = .running) :
      RStep s ⟨.done, s.upToClient, s.counter - 1, s.returned⟩
  | finishUpToClient (s : RelayState) (ioErr : Bool) (h : s.upToClient = .running) :
      RStep s ⟨s.clientToUp, .done, s.counter - 1, s.returned⟩
  | waitReturn (s : RelayState) (h0 : s.counter = 0) (h1 : s.returned = false) :
      RStep s ⟨s.clientToUp, s.upToClient, s.counter, true⟩

/-- The relay states reachable from `relayInit` under any interleaving. -/
inductive RelayReachable : RelayState → Prop
  | init : RelayReachable relayInit
  | step (s s' : RelayState) (hr : RelayReachable s) (hs : RStep s s') : RelayReachable s'

theorem relay_inv (s : RelayState) (h : RelayReachable s) :
    s.counter = (if s.clientToUp = TaskState.running then 1 else 0) +
      (if s.upToClient = TaskState.running then 1 else 0) ∧
    (s.returned = true → s.counter = 0) := by
  induction h with
  | init => simp [relayInit]
  | step s s' hr hs ih =>
    cases hs with
    | finishClientToUp e h1 =>
      constructor
      · cases h2 : s.upToClient <;> simp [h1, h2] at ih ⊢ <;> omega
      · intro hret
        have h0 := ih.2 hret
        simp [h0]
    | finishUpToClient e h1 =>
      constructor
      · cases h2 : s.clientToUp <;> simp [h1, h2] at ih ⊢ <;> omega
      · intro hret
        have h0 := ih.2 hret
        simp [h0]
    | waitReturn h0 h1 =>
      exact ⟨ih.1, fun _ => h0⟩

/- Concrete step-outcome environments used by witnesses and
counterexamples. -/

/-- A plain-path run in which every step succeeds. -/
def envAllOk : RequestEnv :=
  ⟨[], "example.com", "GET", "http://example.com/", "", false,
   true, true, true, true, true, [], 200, false⟩

/-- A plain-path run in which writing the destination token fails. -/
def envTokenFail : RequestEnv :=
  ⟨[], "example.com", "GET", "http://example.com/", "", false,
   true, false, true, true, true, [], 200, false⟩

/-- A plain-path run in which reading the request body fails and every
later step succeeds. -/
def envBodyErr : RequestEnv :=
  ⟨[], "example.com", "GET", "http://example.com/", "", true,
   true, true, true, true, true, [], 200, false⟩

/-- A plain-path run whose client request carries a User-Agent header. -/
def envUA : RequestEnv :=
  ⟨[("User-Agent", ["curl"])], "example.com", "GET", "http://example.com/", "", false,
   true, true, true, true, true, [], 200, false⟩

/-- A CONNECT run in which every step succeeds. -/
def cEnvOk : ConnectEnv := ⟨"example.com:443", true, true, true, true⟩

/-- A CONNECT run in which the acknowledgment write fails after a
successful hijack. -/
def cEnvAckFail : ConnectEnv := ⟨"example.com:443", true, true, true, false⟩

theorem upWrites_token_head (ua : String) (env : RequestEnv) (h1 : env.dialOk = true) :
    ∃ rest, (processRequest ua env).upWrites =
      UpWrite.token (normalizeTargetHost env.host) :: rest := by
  rcases env with ⟨rh, host, m, uri, bb, be, d, t, n, w, r, rsph, sc, ce⟩
  simp only at h1
  subst h1
  cases t <;> cases n <;> cases w <;> cases r <;> cases ce <;> exact ⟨_, rfl⟩

/-- C2: in the CONNECT path, once the client connection has been
hijacked, the raw bytes written to it before the relay begins are
exactly one write of `HTTP/1.0 200 Connection established\r\n\r\n` —
no body, no other header bytes, no additional bytes. -/
theorem connect_ack_exact (env : ConnectEnv) (h1 : env.dialOk = true)
    (h2 : env.tokenWriteOk = true) (h3 : env.hijackOk = true) :
    clientWritesPreRelay (handleConnect env).events = [ackText] ∧
    ackText = "HTTP/1.0 200 Connection established\r\n\r\n" := by
  refine ⟨?_, rfl⟩
  rcases env with ⟨host, d, t, hj, a⟩
  simp only at h1 h2 h3
  subst h1; subst h2; subst h3
  cases a <;> rfl

theorem connect_ack_exact_witness :
    clientWritesPreRelay (handleConnect cEnvOk).events = [ackText] ∧
    ackText = "HTTP/1.0 200 Connection established\r\n\r\n" :=
  connect_ack_exact cEnvOk rfl rfl rfl

/-- C5: whenever the upstream dial succeeded (an upstream connection
was opened), both the plain path and the CONNECT path perform exactly
one destination-token write on that connection, and it precedes every
other upstream write. -/
theorem upstream_token_once_first (ua : String) (env : RequestEnv) (cenv : ConnectEnv)
    (h1 : env.dialOk = true) (h2 : cenv.dialOk = true) :
    ((processRequest ua env).upWrites.countP UpWrite.isTokenWrite = 1 ∧
      ∃ rest, (processRequest ua env).upWrites =
        UpWrite.token (normalizeTargetHost env.host) :: rest) ∧
    (((handleConnect cenv).events.filter CEv.isUpstreamWrite).countP CEv.isUpTokenEv = 1 ∧
      ∃ rest, (handleConnect cenv).events.filter CEv.isUpstreamWrite =
        CEv.upToken cenv.urlHost :: rest) := by
  constructor
  · refine ⟨?_, upWrites_token_head ua env h1⟩
    rcases env with ⟨rh, host, m, uri, bb, be, d, t, n, w, r, rsph, sc, ce⟩
    simp only at h1
    subst h1
    cases t <;> cases n <;> cases w <;> cases r <;> cases ce <;>
      simp [processRequest, UpWrite.isTokenWrite, List.countP_cons, List.countP_nil]
  · rcases cenv with ⟨host, d, t, hj, a⟩
    simp only at h2
    subst h2
    cases t <;> cases hj <;> cases a <;>
      simp [handleConnect, CEv.isUpstreamWrite, CEv.isUpTokenEv, List.countP_cons,
        List.countP_nil]

theorem upstream_token_once_first_witness :
    (((processRequest "" envAllOk).upWrites.countP UpWrite.isTokenWrite = 1 ∧
      ∃ rest, (processRequest "" envAllOk).upWrites =
        UpWrite.token (normalizeTargetHost envAllOk.host) :: rest) ∧
    (((handleConnect cEnvOk).events.filter CEv.isUpstreamWrite).countP CEv.isUpTokenEv = 1 ∧
      ∃ rest, (handleConnect cEnvOk).events.filter CEv.isUpstreamWrite =
        CEv.upToken cEnvOk.urlHost :: rest)) :=
  upstream_token_once_first "" envAllOk cEnvOk rfl rfl

/-- C6: the plain path passes `normalizeTargetHost req.Host` to the
destination encoder: a host with no colon gets `:80` appended (so
`example.com` becomes `example.com:80`) and a host already carrying a
port (hence containing a colon) is passed through unchanged. -/
theorem plain_port_default (ua : String) (env : RequestEnv) (s : String)
    (h1 : env.dialOk = true) (hs : containsChar s ':' = true) :
    (∃ rest, (processRequest ua env).upWrites =
      UpWrite.token (normalizeTargetHost env.host) :: rest) ∧
    normalizeTargetHost "example.com" = "example.com:80" ∧
    normalizeTargetHost s = s := by
  refine ⟨upWrites_token_head ua env h1, by decide, ?_⟩
  simp [normalizeTargetHost, hs]

theorem plain_port_default_witness :
    ((∃ rest, (processRequest "" envAllOk).upWrites =
      UpWrite.token (normalizeTargetHost envAllOk.host) :: rest) ∧
    normalizeTargetHost "example.com" = "example.com:80" ∧
    normalizeTargetHost "example.com:8080" = "example.com:8080") :=
  plain_port_default "" envAllOk "example.com:8080" rfl (by decide)

/-- C4 (amended): the status codes written to the client and the error
returned by the plain path, for every combination of step outcomes: a
failed dial, request construction, request write, or response read
writes 500 and returns the error; a failed destination-token write
returns the error with no status written; a body-read error is ignored;
a body-copy error is returned after the upstream status code was
already written, with nothing further reported to the client. -/
theorem plain_error_policy (ua : String) (env : RequestEnv) :
    (processRequest ua env).statusWrites =
      (if !env.dialOk then [500]
       else if !env.tokenWriteOk then []
       else if !env.newRequestOk then [500]
       else if !env.reqWriteOk then [500]
       else if !env.readResponseOk then [500]
       else [env.respStatusCode]) ∧
    (processRequest ua env).err =
      (if !env.dialOk then some PRErr.dial
       else if !env.tokenWriteOk then some PRErr.tokenWrite
       else if !env.newRequestOk then some PRErr.newRequest
       else if !env.reqWriteOk then some PRErr.reqWrite
       else if !env.readResponseOk then some PRErr.readResponse
       else if env.bodyCopyErr then some PRErr.bodyCopy
       else none) := by
  rcases env with ⟨rh, host, m, uri, bb, be, d, t, n, w, r, rsph, sc, ce⟩
  cases d <;> cases t <;> cases n <;> cases w <;> cases r <;> cases ce <;>
    exact ⟨rfl, rfl⟩

/-- C4 (counterexample): a failed destination-token write returns the
error with no 500-class status written, and a failed body read leads to
no 500-class status and no returned error at all — refuting the claim
that every pre-status error (body read and token write included)
results in a 500-class status plus a returned error. -/
theorem plain_error_policy_counterexample :
    (processRequest "" envTokenFail).err = some PRErr.tokenWrite ∧
    (processRequest "" envTokenFail).statusWrites = [] ∧
    (processRequest "" envBodyErr).err = none ∧
    (processRequest "" envBodyErr).statusWrites = [200] :=
  ⟨rfl, rfl, rfl, rfl⟩

/-- C7 (counterexample): with User-Agent override `custom` configured
and a client request carrying `User-Agent: curl`, the outgoing upstream
request's User-Agent values are `[curl, custom]`, not `[custom]`: the
client-supplied value is still forwarded, refuting set/overwrite. -/
theorem plain_ua_counterexample :
    (processRequest "custom" envUA).upWrites =
      [UpWrite.token "example.com:80",
       UpWrite.request "GET" "http://example.com/"
         [("User-Agent", ["curl", "custom"])] ""] ∧
    Header.values [("User-Agent", ["curl", "custom"])] "User-Agent" ≠ ["custom"] := by
  refine ⟨?_, by decide⟩
  decide

/-- C7 (amended): when a non-empty user-agent override is configured,
the plain path appends it as an additional `User-Agent` value of the
outgoing request after the sanitized client headers: the outgoing
values for `User-Agent` are the copied client values followed by the
configured one (the client-supplied value is not removed). -/
theorem plain_ua_appended (ua : String) (env : RequestEnv) (hua : ua ≠ "")
    (h1 : env.dialOk = true) (h2 : env.tokenWriteOk = true)
    (h3 : env.newRequestOk = true) :
    (processRequest ua env).upWrites =
      [UpWrite.token (normalizeTargetHost env.host),
       UpWrite.request env.method env.requestURI
         ((copyHeaders [] env.reqHeader).add "User-Agent" ua) env.bodyBytes] ∧
    ((copyHeaders [] env.reqHeader).add "User-Agent" ua).values "User-Agent" =
      (copyHeaders [] env.reqHeader).values "User-Agent" ++ [ua] := by
  refine ⟨?_, values_add_self _ _ _⟩
  rcases env with ⟨rh, host, m, uri, bb, be, d, t, n, w, r, rsph, sc, ce⟩
  simp only at h1 h2 h3
  subst h1; subst h2; subst h3
  cases w <;> cases r <;> cases ce <;> simp [processRequest, hua]

theorem plain_ua_appended_witness :
    ((processRequest "custom" envUA).upWrites =
      [UpWrite.token (normalizeTargetHost envUA.host),
       UpWrite.request envUA.method envUA.requestURI
         ((copyHeaders [] envUA.reqHeader).add "User-Agent" "custom") envUA.bodyBytes] ∧
    ((copyHeaders [] envUA.reqHeader).add "User-Agent" "custom").values "User-Agent" =
      (copyHeaders [] envUA.reqHeader).values "User-Agent" ++ ["custom"]) :=
  plain_ua_appended "custom" envUA (by decide) rfl rfl rfl

/-- C8 (code evaluated at the failing input): when dial, token write
and hijack succeed but the acknowledgment write fails, `handleConnect`
calls `resp.WriteHeader(500)` after the `hijack` event — the HTTP
response object is used again after a successful hijack. -/
theorem connect_resp_used_after_hijack :
    (handleConnect cEnvAckFail).events =
      [CEv.upToken "example.com:443", CEv.hijack, CEv.clientWrite ackText,
       CEv.respWriteHeader 500] := rfl

/-- C9: in every state reachable under any interleaving of the relay's
two `transfer` tasks and the waiting parent, `wg.Wait()` has returned
only if both copy directions have terminated; every non-returned state
can still take a step (no deadlock, whichever direction finishes
first); and a running copy task can always finish with either I/O
outcome, the resulting state not depending on the error, which is
discarded rather than reported upward. -/
theorem relay_join_correct (s : RelayState) (h : RelayReachable s) :
    (s.returned = true → s.clientToUp = TaskState.done ∧ s.upToClient = TaskState.done) ∧
    (s.returned = false → ∃ s', RStep s s') ∧
    (∀ ioErr : Bool, s.clientToUp = TaskState.running →
      RStep s ⟨TaskState.done, s.upToClient, s.counter - 1, s.returned⟩) := by
  have inv := relay_inv s h
  refine ⟨?_, ?_, fun e h1 => RStep.finishClientToUp s e h1⟩
  · intro hret
    have hc := inv.2 hret
    rw [inv.1] at hc
    cases h1 : s.clientToUp <;> cases h2 : s.upToClient <;>
      simp [h1, h2] at hc ⊢
  · intro hret
    cases h1 : s.clientToUp with
    | running => exact ⟨_, RStep.finishClientToUp s false h1⟩
    | done =>
      cases h2 : s.upToClient with
      | running => exact ⟨_, RStep.finishUpToClient s false h2⟩
      | done =>
        have h0 : s.counter = 0 := by rw [inv.1, h1, h2]; simp
        exact ⟨_, RStep.waitReturn s h0 hret⟩

theorem relay_join_correct_witness : ∃ s', RStep relayInit s' :=
  (relay_join_correct relayInit RelayReachable.init).2.1 rfl

/-- C10: the plain path never inspects the body-read error: its result
is the same for either value of the error flag, and on a run where the
body read failed but every later step succeeds, no error is returned
and the upstream request is written with exactly the bytes that were
read before the failure. -/
theorem body_read_error_ignored (ua : String) (rh : Header) (host m uri bb : String)
    (e1 e2 t n w r : Bool) (rsph : Header) (sc : Nat) (ce : Bool) (d : Bool) :
    processRequest ua ⟨rh, host, m, uri, bb, e1, d, t, n, w, r, rsph, sc, ce⟩ =
      processRequest ua ⟨rh, host, m, uri, bb, e2, d, t, n, w, r, rsph, sc, ce⟩ ∧
    (processRequest ua
      ⟨rh, host, m, uri, bb, true, true, true, true, true, true, rsph, sc, false⟩).err =
        none ∧
    (processRequest ua
      ⟨rh, host, m, uri, bb, true, true, true, true, true, true, rsph, sc, false⟩).upWrites =
      [UpWrite.token (normalizeTargetHost host),
       UpWrite.request m uri
         (if ua ≠ "" then (copyHeaders [] rh).add "User-Agent" ua else copyHeaders [] rh)
         bb] :=
  ⟨rfl, rfl, rfl⟩

end ShadowHTTP
